import Mathlib

/-!
# bitBeam: file lifecycle and download-accounting engine

A shallow embedding of the core of the bitBeam ephemeral file-delivery
service (`src/api.rs`, `src/data.rs`, `src/main.rs`): the upload handler
and the download (consumption) handler, together with the persistent
state they act on (blob store, `files` table, `users` table).

The stores are modelled as partial maps keyed by the identifier strings,
database and filesystem operations are modelled as atomic state updates,
and the possibility that an individual store operation fails for an
external reason (disk error, database error) is modelled by an explicit
fault environment passed to each handler.  Each handler returns the HTTP
outcome, the successor state, and the ordered trace of successful store
operations it performed.
-/

namespace BitBeam

/-- One row of the `files` table, as inserted by `upload` in `api.rs`
(the fields bound in the `INSERT INTO files` statement). -/
structure FileRec where
  id : String
  file_name : String
  content_type : String
  upload_time : Int
  download_limit : Int
  download_count : Int
  file_size : Int
  download_url : String
  owner : String
  deriving DecidableEq, Repr

/-- One row of the `users` table (`data::user`). -/
structure UserRec where
  key : String
  username : String
  password : String
  deriving DecidableEq, Repr

/-- The configuration fields of `data::Config` that the two handlers
actually consult. -/
structure Config where
  use_tls : Bool
  base_url : String
  deriving DecidableEq, Repr

/-- The persistent state shared by all handlers: the blob directory
(files named by identifier under `config.data_path`), the `files`
table and the `users` table (both keyed by their primary key). -/
structure Store where
  blobs : String → Option (List Nat)
  files : String → Option FileRec
  users : String → Option UserRec

/-- A successful storage or database operation, recorded in the order
the handler performed it. -/
inductive Event where
  | mkdir
  | blobWrite (id : String)
  | dbInsert (id : String)
  | blobExistsCheck (id : String)
  | dbSelect (id : String)
  | dbUpdateCount (id : String)
  | blobRead (id : String)
  | blobDelete (id : String)
  | dbDelete (id : String)
  deriving DecidableEq, Repr

/-- Which externally-caused failures occur during one `upload` call. -/
structure UpEnv where
  userSelectFails : Bool
  mkdirFails : Bool
  writeFails : Bool
  insertFails : Bool
  deriving DecidableEq, Repr

/-- Which externally-caused failures occur during one `download_file`
call. -/
structure DlEnv where
  selectFails : Bool
  updateFails : Bool
  readFails : Bool
  blobDeleteFails : Bool
  dbDeleteFails : Bool
  deriving DecidableEq, Repr

/-- The fault-free upload environment. -/
def upOk : UpEnv := ⟨false, false, false, false⟩

/-- The fault-free download environment. -/
def dlOk : DlEnv := ⟨false, false, false, false, false⟩

/-- Outcome of an `upload` call, mirroring the distinct responses in
`api.rs`. -/
inductive UpResult where
  | ok (file : FileRec)
  | badRequestKey
  | keyInvalid
  | dirError
  | writeError
  | dbInsertError
  deriving DecidableEq, Repr

/-- Outcome of a `download_file` call, mirroring the distinct responses
in `api.rs`.  `notFound` is the 404 returned when the blob is missing;
every other error is a 500 with the quoted message. -/
inductive DlResult where
  | ok (bytes : List Nat) (content_type file_name : String) (file_size : Int)
  | notFound
  | dbSelectError
  | dbUpdateError
  | fileReadError
  | fileDeleteError
  | dbDeleteError
  deriving DecidableEq, Repr

/-- Value of one decimal digit character, as accepted by Rust's
`str::parse`. -/
def digitVal (c : Char) : Option Nat :=
  if '0' ≤ c ∧ c ≤ '9' then some (c.toNat - 48) else none

/-- Accumulate a digit string into a natural number; any non-digit
makes the whole parse fail. -/
def parseDigits (cs : List Char) : Option Nat :=
  cs.foldl
    (fun acc c =>
      match acc, digitVal c with
      | some n, some d => some (n * 10 + d)
      | _, _ => none)
    (some 0)

/-- Rust's `str::parse::<i32>()`: an optional sign followed by at least
one decimal digit, rejecting anything outside the `i32` range. -/
def parseI32 (s : String) : Option Int :=
  let cs := s.toList
  let signDigits : Int × List Char :=
    match cs with
    | '+' :: rest => (1, rest)
    | '-' :: rest => (-1, rest)
    | _ => (1, cs)
  if signDigits.2.isEmpty then none
  else
    match parseDigits signDigits.2 with
    | none => none
    | some n =>
      let v : Int := signDigits.1 * (n : Int)
      if v < -(2 ^ 31) ∨ 2 ^ 31 - 1 < v then none else some v

/-- The `download_limit` actually stored by `upload`: the header value
when present and parseable as an `i32`, and `1` otherwise
(`.and_then(|s| s.parse::<i32>().ok()).unwrap_or(1)`). -/
def effectiveLimit (h : Option String) : Int :=
  match h with
  | none => 1
  | some s => (parseI32 s).getD 1

/-- The `download_url` computed by `upload` from the TLS flag and base
URL. -/
def downloadUrl (cfg : Config) (id : String) : String :=
  (if cfg.use_tls then "https://" else "http://")
    ++ cfg.base_url ++ "/download/" ++ id

/-- The `upload` handler of `api.rs`, with the request headers, body,
the freshly generated identifier and the current timestamp as explicit
arguments.  Returns the response, the successor store and the trace of
successful storage operations.

Steps, in source order: require the `key` header; resolve the key
against the `users` table; read the optional headers; create the blob
directory; write the body to the blob store under the new identifier;
insert the `files` row with `download_count = 0` (failing if the
primary key already exists); return the record.  On insert failure the
handler returns the error without removing the blob it just wrote. -/
def upload (key content_typeH file_nameH download_limitH : Option String)
    (body : List Nat) (id : String) (now : Int) (cfg : Config)
    (st : Store) (env : UpEnv) : UpResult × Store × List Event :=
  match key with
  | none => (.badRequestKey, st, [])
  | some k =>
    if env.userSelectFails then (.keyInvalid, st, [])
    else
      match st.users k with
      | none => (.keyInvalid, st, [])
      | some user =>
        let content_type := content_typeH.getD "unknown"
        let download_limit := effectiveLimit download_limitH
        let file_name := file_nameH.getD "unknown"
        if env.mkdirFails then (.dirError, st, [])
        else
          if env.writeFails then (.writeError, st, [.mkdir])
          else
            let st1 : Store :=
              { st with blobs := fun i => if i = id then some body else st.blobs i }
            let file_size : Int := (body.length : Int)
            if env.insertFails ∨ (st1.files id).isSome then
              (.dbInsertError, st1, [.mkdir, .blobWrite id])
            else
              let rec0 : FileRec :=
                { id := id, file_name := file_name, content_type := content_type
                  upload_time := now, download_limit := download_limit
                  download_count := 0, file_size := file_size
                  download_url := downloadUrl cfg id, owner := user.username }
              (.ok rec0,
               { st1 with files := fun i => if i = id then some rec0 else st1.files i },
               [.mkdir, .blobWrite id, .dbInsert id])

/-- The `download_file` handler of `api.rs`.  Steps, in source order:
check the blob exists on disk (else 404); `SELECT` the `files` row
(else 500); `UPDATE files SET download_count = download_count + 1`;
read the blob bytes; if the `download_count` of the row *as fetched by
the SELECT* is `>=` its `download_limit`, remove the blob and then
`DELETE` the row; return the bytes with the `content_type`,
`file_name` and `file_size` of the fetched row. -/
def download_file (uuid : String) (st : Store) (env : DlEnv) :
    DlResult × Store × List Event :=
  match st.blobs uuid with
  | none => (.notFound, st, [])
  | some bytes =>
    let tr1 : List Event := [.blobExistsCheck uuid]
    if env.selectFails then (.dbSelectError, st, tr1)
    else
      match st.files uuid with
      | none => (.dbSelectError, st, tr1)
      | some file =>
        let tr2 := tr1 ++ [.dbSelect uuid]
        if env.updateFails then (.dbUpdateError, st, tr2)
        else
          let st1 : Store :=
            { st with
              files := fun i =>
                if i = uuid then
                  (st.files i).map fun r =>
                    { r with download_count := r.download_count + 1 }
                else st.files i }
          let tr3 := tr2 ++ [.dbUpdateCount uuid]
          if env.readFails then (.fileReadError, st1, tr3)
          else
            let tr4 := tr3 ++ [.blobRead uuid]
            if file.download_limit ≤ file.download_count then
              if env.blobDeleteFails then (.fileDeleteError, st1, tr4)
              else
                let st2 : Store :=
                  { st1 with blobs := fun i => if i = uuid then none else st1.blobs i }
                let tr5 := tr4 ++ [.blobDelete uuid]
                if env.dbDeleteFails then (.dbDeleteError, st2, tr5)
                else
                  (.ok bytes file.content_type file.file_name file.file_size,
                   { st2 with files := fun i => if i = uuid then none else st2.files i },
                   tr5 ++ [.dbDelete uuid])
            else
              (.ok bytes file.content_type file.file_name file.file_size, st1, tr4)

/-! ## Concrete scenario used to exercise the handlers -/

/-- A registered user, keyed by `"k0"`. -/
def demoUser : UserRec := ⟨"k0", "alice", "pw"⟩

/-- An initial store: empty blob directory, empty `files` table, and a
`users` table holding only `demoUser`. -/
def demoStore : Store :=
  { blobs := fun _ => none, files := fun _ => none,
    users := fun k => if k = "k0" then some demoUser else none }

/-- A demo configuration: no TLS, base URL `localhost:3000`. -/
def demoCfg : Config := ⟨false, "localhost:3000"⟩

/-- Upload of the two bytes `"hi"` with `download_limit = 1` under the
fresh identifier `"f1"`. -/
def demoUp : UpResult × Store × List Event :=
  upload (some "k0") (some "text/plain") (some "a.txt") (some "1")
    [104, 105] "f1" 100 demoCfg demoStore upOk

/-- First fault-free download of `"f1"` after the upload. -/
def demoDl1 : DlResult × Store × List Event :=
  download_file "f1" demoUp.2.1 dlOk

/-- Second fault-free download of `"f1"`. -/
def demoDl2 : DlResult × Store × List Event :=
  download_file "f1" demoDl1.2.1 dlOk

/-! ## Inversion and preservation lemmas -/

/-- Inversion for a successful `download_file` call: the blob and the
`files` row existed at entry, the returned payload is the blob's bytes
and the returned metadata comes from the fetched row, and the call
either triggered the dual deletion (when the *fetched* `download_count`
already reached the limit) or merely incremented the counter. -/
theorem download_ok_inv (uuid : String) (st : Store) (env : DlEnv)
    (b : List Nat) (ct fn : String) (fs : Int) (st' : Store) (tr : List Event)
    (h : download_file uuid st env = (.ok b ct fn fs, st', tr)) :
    ∃ bytes r, st.blobs uuid = some bytes ∧ st.files uuid = some r ∧
      b = bytes ∧ ct = r.content_type ∧ fn = r.file_name ∧ fs = r.file_size ∧
      ((r.download_limit ≤ r.download_count ∧
        tr = [.blobExistsCheck uuid, .dbSelect uuid, .dbUpdateCount uuid, .blobRead uuid,
              .blobDelete uuid, .dbDelete uuid] ∧
        (∀ i, st'.blobs i = if i = uuid then none else st.blobs i) ∧
        (∀ i, st'.files i = if i = uuid then none else st.files i) ∧
        st'.users = st.users) ∨
       (r.download_count < r.download_limit ∧
        tr = [.blobExistsCheck uuid, .dbSelect uuid, .dbUpdateCount uuid, .blobRead uuid] ∧
        (∀ i, st'.blobs i = st.blobs i) ∧
        (∀ i, st'.files i =
          if i = uuid then
            (st.files i).map fun r0 => { r0 with download_count := r0.download_count + 1 }
          else st.files i) ∧
        st'.users = st.users)) := by
  cases hb : st.blobs uuid with
  | none => simp [download_file, hb] at h
  | some bytes =>
  by_cases h1 : env.selectFails
  · simp [download_file, hb, h1] at h
  cases hf : st.files uuid with
  | none => simp [download_file, hb, h1, hf] at h
  | some file =>
  by_cases h2 : env.updateFails
  · simp [download_file, hb, h1, hf, h2] at h
  by_cases h3 : env.readFails
  · simp [download_file, hb, h1, hf, h2, h3] at h
  by_cases h4 : file.download_limit ≤ file.download_count
  · by_cases h5 : env.blobDeleteFails
    · simp [download_file, hb, h1, hf, h2, h3, h4, h5] at h
    by_cases h6 : env.dbDeleteFails
    · simp [download_file, hb, h1, hf, h2, h3, h4, h5, h6] at h
    · simp [download_file, hb, h1, hf, h2, h3, h4, h5, h6] at h
      obtain ⟨⟨hbb, hct, hfn, hfs⟩, hst, htr⟩ := h
      refine ⟨bytes, file, rfl, rfl, hbb.symm, hct.symm, hfn.symm, hfs.symm,
        Or.inl ⟨h4, htr.symm, ?_, ?_, ?_⟩⟩
      · intro i; rw [← hst]
      · intro i; rw [← hst]; by_cases hi : i = uuid <;> simp [hi]
      · rw [← hst]
  · simp [download_file, hb, h1, hf, h2, h3, h4] at h
    obtain ⟨⟨hbb, hct, hfn, hfs⟩, hst, htr⟩ := h
    refine ⟨bytes, file, rfl, rfl, hbb.symm, hct.symm, hfn.symm, hfs.symm,
      Or.inr ⟨by omega, htr.symm, ?_, ?_, ?_⟩⟩
    · intro i; rw [← hst]
    · intro i; rw [← hst]
    · rw [← hst]

/-- Inversion for a `download_file` call whose trace contains the
metadata deletion: only the final branch of the handler emits
`dbDelete`, so the trace is exactly the six-event expiry trace (the
blob deletion immediately preceding), and neither the blob nor the row
survives in the successor state. -/
theorem download_dbDelete_inv (uuid : String) (st : Store) (env : DlEnv)
    (res : DlResult) (st' : Store) (tr : List Event)
    (h : download_file uuid st env = (res, st', tr))
    (hmem : Event.dbDelete uuid ∈ tr) :
    tr = [.blobExistsCheck uuid, .dbSelect uuid, .dbUpdateCount uuid, .blobRead uuid,
          .blobDelete uuid, .dbDelete uuid] ∧
    st'.blobs uuid = none ∧ st'.files uuid = none := by
  cases hb : st.blobs uuid with
  | none =>
    simp [download_file, hb] at h
    obtain ⟨-, -, htr⟩ := h
    subst htr; simp at hmem
  | some bytes =>
  by_cases h1 : env.selectFails
  · simp [download_file, hb, h1] at h
    obtain ⟨-, -, htr⟩ := h
    subst htr; simp at hmem
  cases hf : st.files uuid with
  | none =>
    simp [download_file, hb, h1, hf] at h
    obtain ⟨-, -, htr⟩ := h
    subst htr; simp at hmem
  | some file =>
  by_cases h2 : env.updateFails
  · simp [download_file, hb, h1, hf, h2] at h
    obtain ⟨-, -, htr⟩ := h
    subst htr; simp at hmem
  by_cases h3 : env.readFails
  · simp [download_file, hb, h1, hf, h2, h3] at h
    obtain ⟨-, -, htr⟩ := h
    subst htr; simp at hmem
  by_cases h4 : file.download_limit ≤ file.download_count
  · by_cases h5 : env.blobDeleteFails
    · simp [download_file, hb, h1, hf, h2, h3, h4, h5] at h
      obtain ⟨-, -, htr⟩ := h
      subst htr; simp at hmem
    by_cases h6 : env.dbDeleteFails
    · simp [download_file, hb, h1, hf, h2, h3, h4, h5, h6] at h
      obtain ⟨-, -, htr⟩ := h
      subst htr; simp at hmem
    · simp [download_file, hb, h1, hf, h2, h3, h4, h5, h6] at h
      obtain ⟨-, hst, htr⟩ := h
      subst htr
      subst hst
      exact ⟨rfl, by simp, by simp⟩
  · simp [download_file, hb, h1, hf, h2, h3, h4] at h
    obtain ⟨-, -, htr⟩ := h
    subst htr; simp at hmem

/-- The per-record invariant I1 of the spec: every row of the `files`
table has `0 ≤ download_count ≤ download_limit`. -/
def FileInv (st : Store) : Prop :=
  ∀ id r, st.files id = some r →
    0 ≤ r.download_count ∧ r.download_count ≤ r.download_limit

/-- An `upload` call whose effective download limit is nonnegative
preserves the per-record invariant, whatever faults occur: the only
row it can add starts at `download_count = 0`. -/
theorem upload_preserves_inv (key ct fn dl : Option String) (body : List Nat)
    (id : String) (now : Int) (cfg : Config) (st : Store) (env : UpEnv)
    (hl : 0 ≤ effectiveLimit dl) (hinv : FileInv st) :
    FileInv (upload key ct fn dl body id now cfg st env).2.1 := by
  cases key with
  | none => simpa [upload] using hinv
  | some k =>
  by_cases h1 : env.userSelectFails
  · simpa [upload, h1] using hinv
  cases hu : st.users k with
  | none => simpa [upload, h1, hu] using hinv
  | some user =>
  by_cases h2 : env.mkdirFails
  · simpa [upload, h1, hu, h2] using hinv
  by_cases h3 : env.writeFails
  · simpa [upload, h1, hu, h2, h3] using hinv
  by_cases h4 : env.insertFails ∨ (st.files id).isSome
  · simpa [upload, h1, hu, h2, h3, h4] using hinv
  · intro i r hi
    by_cases hid : i = id
    · subst hid
      simp [upload, h1, hu, h2, h3, h4] at hi
      rw [← hi]
      exact ⟨le_refl 0, hl⟩
    · refine hinv i r ?_
      simpa [upload, h1, hu, h2, h3, h4, hid] using hi

/-- A fault-free `download_file` call preserves the per-record
invariant: a record below its limit is incremented to a value still at
most the limit, and a record at or above its limit is deleted. -/
theorem download_preserves_inv (uuid : String) (st : Store) (hinv : FileInv st) :
    FileInv (download_file uuid st dlOk).2.1 := by
  cases hb : st.blobs uuid with
  | none => simpa [download_file, hb] using hinv
  | some bytes =>
  cases hf : st.files uuid with
  | none => simpa [download_file, hb, hf] using hinv
  | some file =>
  by_cases h4 : file.download_limit ≤ file.download_count
  · intro i r hi
    by_cases hid : i = uuid
    · subst hid
      simp [download_file, dlOk, hb, hf, h4] at hi
    · refine hinv i r ?_
      simpa [download_file, dlOk, hb, hf, h4, hid] using hi
  · intro i r hi
    by_cases hid : i = uuid
    · subst hid
      simp [download_file, dlOk, hb, hf, h4] at hi
      have hbase := hinv i file hf
      rw [← hi]
      constructor <;> simp <;> omega
    · refine hinv i r ?_
      simpa [download_file, dlOk, hb, hf, h4, hid] using hi

/-- States reachable from an initial store (no blobs, no file rows, an
arbitrary `users` table) by any sequence of fault-free `upload` and
`download_file` calls with arbitrary request data. -/
inductive ReachAny : Store → Prop where
  | init (users : String → Option UserRec) :
      ReachAny { blobs := fun _ => none, files := fun _ => none, users := users }
  | step_upload (key ct fn dl : Option String) (body : List Nat) (id : String)
      (now : Int) (cfg : Config) (st : Store) (h : ReachAny st) :
      ReachAny (upload key ct fn dl body id now cfg st upOk).2.1
  | step_download (uuid : String) (st : Store) (h : ReachAny st) :
      ReachAny (download_file uuid st dlOk).2.1

/-- Like `ReachAny`, but every upload's effective `download_limit` is
required to be nonnegative. -/
inductive NonNegReach : Store → Prop where
  | init (users : String → Option UserRec) :
      NonNegReach { blobs := fun _ => none, files := fun _ => none, users := users }
  | step_upload (key ct fn dl : Option String) (body : List Nat) (id : String)
      (now : Int) (cfg : Config) (st : Store) (hl : 0 ≤ effectiveLimit dl)
      (h : NonNegReach st) :
      NonNegReach (upload key ct fn dl body id now cfg st upOk).2.1
  | step_download (uuid : String) (st : Store) (h : NonNegReach st) :
      NonNegReach (download_file uuid st dlOk).2.1

/-! ## Theorems -/

/-- C1.  The claim says that a file uploaded with `download_limit = 1`
admits exactly 1 successful consume, the 2nd call fails NotFound, and
after the 1st success neither blob nor metadata exists.  The code
instead compares the pre-increment `download_count` (fetched by the
SELECT) against the limit, so the file is still fully present after the
first download and the second download also succeeds: a limit-1 file is
served twice. -/
theorem limit_one_file_served_twice :
    demoUp.1 = .ok { id := "f1", file_name := "a.txt", content_type := "text/plain",
                     upload_time := 100, download_limit := 1, download_count := 0,
                     file_size := 2, download_url := "http://localhost:3000/download/f1",
                     owner := "alice" } ∧
    demoDl1.1 = .ok [104, 105] "text/plain" "a.txt" 2 ∧
    demoDl1.2.1.blobs "f1" = some [104, 105] ∧
    (demoDl1.2.1.files "f1").isSome = true ∧
    demoDl2.1 = .ok [104, 105] "text/plain" "a.txt" 2 ∧
    demoDl2.1 ≠ .notFound := by
  refine ⟨by decide, by decide, by decide, by decide, by decide, by decide⟩

/-- C9.  An upload whose `key` header is absent fails with the 400
`"Key header not supplied"` response before any storage I/O: the store
is returned unchanged and the trace of performed operations is empty. -/
theorem upload_missing_key_no_io
    (ct fn dl : Option String) (body : List Nat) (id : String) (now : Int)
    (cfg : Config) (st : Store) (env : UpEnv) :
    upload none ct fn dl body id now cfg st env = (.badRequestKey, st, []) := rfl

/-- The store produced by uploading one byte with the header
`download_limit: -1`, which `parse::<i32>()` accepts. -/
def negStore : Store :=
  (upload (some "k0") none none (some "-1") [1] "fneg" 0 demoCfg demoStore upOk).2.1

/-- The `files` row created by the `download_limit: -1` upload. -/
def negRec : FileRec :=
  { id := "fneg", file_name := "unknown", content_type := "unknown",
    upload_time := 0, download_limit := -1, download_count := 0, file_size := 1,
    download_url := "http://localhost:3000/download/fneg", owner := "alice" }

/-- C2, counterexample.  The claim asserts `0 ≤ download_count ≤
download_limit` for every record after any sequence of upload and
consume operations.  `upload` stores the `download_limit` header
verbatim whenever it parses as an `i32`, so uploading with
`download_limit: -1` yields a reachable state containing a record with
`download_count = 0 > -1 = download_limit`. -/
theorem negative_limit_breaks_invariant :
    ReachAny negStore ∧ negStore.files "fneg" = some negRec ∧ ¬ FileInv negStore := by
  refine ⟨?_, by decide, ?_⟩
  · unfold negStore demoStore
    exact ReachAny.step_upload _ _ _ _ _ _ _ _ _ (ReachAny.init _)
  · intro h
    have h2 := (h "fneg" negRec (by decide)).2
    exact absurd h2 (by decide)

/-- C2, amended.  For every state reachable by fault-free uploads and
downloads in which each upload's effective `download_limit` is
nonnegative, every `files` record satisfies
`0 ≤ download_count ≤ download_limit`. -/
theorem reachable_file_invariant (st : Store) (h : NonNegReach st) : FileInv st := by
  induction h with
  | init users => intro i r hi; cases hi
  | step_upload key ct fn dl body id now cfg st hl h ih =>
    exact upload_preserves_inv key ct fn dl body id now cfg st upOk hl ih
  | step_download uuid st h ih =>
    exact download_preserves_inv uuid st ih

/-- Witness for C2: the invariant holds in an initial store, obtained
by applying `reachable_file_invariant` to `NonNegReach.init`. -/
theorem reachable_file_invariant_witness : FileInv demoStore :=
  reachable_file_invariant demoStore
    (NonNegReach.init fun k => if k = "k0" then some demoUser else none)

/-- A `files` row with `download_limit = 1` and `download_count = 0`,
as created by an upload with `download_limit: 1`. -/
def raceRec : FileRec :=
  { id := "g", file_name := "race.bin", content_type := "application/x",
    upload_time := 0, download_limit := 1, download_count := 0, file_size := 1,
    download_url := "u", owner := "alice" }

/-- A store holding `raceRec` and its one-byte blob. -/
def raceStore : Store :=
  { blobs := fun i => if i = "g" then some [7] else none,
    files := fun i => if i = "g" then some raceRec else none,
    users := fun _ => none }

/-- The first of two back-to-back downloads of `"g"`. -/
def raceDlA : DlResult × Store × List Event := download_file "g" raceStore dlOk

/-- The second of two back-to-back downloads of `"g"`. -/
def raceDlB : DlResult × Store × List Event := download_file "g" raceDlA.2.1 dlOk

/-- C3.  The claim says two concurrent consume calls on a
`download_limit = 1` file yield exactly one success and one NotFound,
thanks to per-identifier mutual exclusion.  The code has no mutual
exclusion at all, and even the fully serialized schedule — one call
completing before the other starts, which is a legal schedule of two
concurrent calls and the only schedule mutual exclusion would permit —
produces two successes, because the expiry check compares the stale
pre-increment count against the limit. -/
theorem concurrent_exhaustion_two_successes :
    raceStore.files "g" = some raceRec ∧
    raceRec.download_limit = 1 ∧ raceRec.download_count = 0 ∧
    raceDlA.1 = .ok [7] "application/x" "race.bin" 1 ∧
    raceDlB.1 = .ok [7] "application/x" "race.bin" 1 ∧
    raceDlB.1 ≠ .notFound := by
  exact ⟨by decide, by decide, by decide, by decide, by decide, by decide⟩

/-- C4.  Every successful `download_file` call read the blob before any
deletion — its trace is `[existence check, row select, counter update,
blob read]`, optionally followed by the two deletions — and the
returned bytes are the blob's content while the returned
`content_type`, `file_name` and `file_size` are the fields of the row
fetched in step 2, whether or not deletion was triggered. -/
theorem download_reads_before_delete (uuid : String) (st : Store) (env : DlEnv)
    (b : List Nat) (ct fn : String) (fs : Int) (st' : Store) (tr : List Event)
    (h : download_file uuid st env = (.ok b ct fn fs, st', tr)) :
    ∃ bytes r, st.blobs uuid = some bytes ∧ st.files uuid = some r ∧
      b = bytes ∧ ct = r.content_type ∧ fn = r.file_name ∧ fs = r.file_size ∧
      (tr = [.blobExistsCheck uuid, .dbSelect uuid, .dbUpdateCount uuid, .blobRead uuid] ∨
       tr = [.blobExistsCheck uuid, .dbSelect uuid, .dbUpdateCount uuid, .blobRead uuid,
             .blobDelete uuid, .dbDelete uuid]) := by
  obtain ⟨bytes, r, h1, h2, h3, h4, h5, h6, hcase⟩ :=
    download_ok_inv uuid st env b ct fn fs st' tr h
  exact ⟨bytes, r, h1, h2, h3, h4, h5, h6,
    hcase.elim (fun hc => Or.inr hc.2.1) fun hc => Or.inl hc.2.1⟩

/-- The store for the C4 witness: a row `"w"` far below its limit. -/
def servStore : Store :=
  { blobs := fun i => if i = "w" then some [3] else none,
    files := fun i =>
      if i = "w" then
        some { id := "w", file_name := "n", content_type := "t", upload_time := 0,
               download_limit := 5, download_count := 0, file_size := 1,
               download_url := "u", owner := "o" }
      else none,
    users := fun _ => none }

/-- Witness for C4 at the concrete store `servStore`. -/
theorem download_reads_before_delete_witness :
    ∃ bytes r, servStore.blobs "w" = some bytes ∧ servStore.files "w" = some r ∧
      [3] = bytes ∧ "t" = r.content_type ∧ "n" = r.file_name ∧ (1 : Int) = r.file_size ∧
      ((download_file "w" servStore dlOk).2.2 =
        [.blobExistsCheck "w", .dbSelect "w", .dbUpdateCount "w", .blobRead "w"] ∨
       (download_file "w" servStore dlOk).2.2 =
        [.blobExistsCheck "w", .dbSelect "w", .dbUpdateCount "w", .blobRead "w",
         .blobDelete "w", .dbDelete "w"]) :=
  download_reads_before_delete "w" servStore dlOk [3] "t" "n" 1
    (download_file "w" servStore dlOk).2.1 (download_file "w" servStore dlOk).2.2 rfl

/-- A store whose blob directory holds a file `"o"` with no matching
`files` row. -/
def orphanBlobStore : Store :=
  { blobs := fun i => if i = "o" then some [1] else none,
    files := fun _ => none,
    users := fun _ => none }

/-- C5, counterexample.  The claim says a consume call finding the blob
but no metadata row fails NotFound.  The code's `fetch_one` error
branch returns 500 `"Database select error"`, not the 404 NotFound
response. -/
theorem missing_row_not_notfound :
    orphanBlobStore.blobs "o" = some [1] ∧ orphanBlobStore.files "o" = none ∧
    (download_file "o" orphanBlobStore dlOk).1 = .dbSelectError ∧
    (download_file "o" orphanBlobStore dlOk).1 ≠ .notFound := by
  exact ⟨by decide, by decide, by decide, by decide⟩

/-- C5, amended.  A consume call finding the blob but no metadata row
always fails, but with the database-select error (HTTP 500), not
NotFound. -/
theorem missing_row_db_error (uuid : String) (st : Store) (env : DlEnv) (b : List Nat)
    (hb : st.blobs uuid = some b) (hf : st.files uuid = none) :
    (download_file uuid st env).1 = .dbSelectError := by
  simp only [download_file, hb, hf]
  by_cases hs : env.selectFails <;> simp [hs]

/-- Witness for C5 at the concrete store `orphanBlobStore`. -/
theorem missing_row_db_error_witness :
    (download_file "o" orphanBlobStore dlOk).1 = .dbSelectError :=
  missing_row_db_error "o" orphanBlobStore dlOk [1] (by decide) (by decide)

/-- An upload environment in which only the metadata insert fails. -/
def insertFailEnv : UpEnv := ⟨false, false, false, true⟩

/-- An upload of two bytes under identifier `"f6"` whose metadata
insert fails after the blob write succeeded. -/
def insertFailUp : UpResult × Store × List Event :=
  upload (some "k0") none none none [5, 6] "f6" 0 demoCfg demoStore insertFailEnv

/-- C6.  The claim (and §4.2 step 7 of the spec, which flags the source
as lacking this) requires the blob to be removed before the insert
error is returned.  The code returns `"Database insert error"`
directly: the blob written for the new identifier persists with no
metadata row. -/
theorem insert_failure_leaves_orphan_blob :
    insertFailUp.1 = .dbInsertError ∧
    insertFailUp.2.1.blobs "f6" = some [5, 6] ∧
    insertFailUp.2.1.files "f6" = none := by
  exact ⟨by decide, by decide, by decide⟩

/-- C7.  Expiry deletions are ordered: the metadata `DELETE` appears in
a call's trace only as the final event of the six-event expiry trace,
immediately after the blob deletion, and then neither blob nor row
survives; conversely, a successful call whose fetched row had
`download_count ≥ download_limit` does perform both deletions. -/
theorem download_expiry_delete_order (uuid : String) (st : Store) (env : DlEnv)
    (res : DlResult) (st' : Store) (tr : List Event)
    (h : download_file uuid st env = (res, st', tr)) :
    (Event.dbDelete uuid ∈ tr →
      tr = [.blobExistsCheck uuid, .dbSelect uuid, .dbUpdateCount uuid, .blobRead uuid,
            .blobDelete uuid, .dbDelete uuid] ∧
      st'.blobs uuid = none ∧ st'.files uuid = none) ∧
    (∀ r b2 ct2 fn2 fs2, st.files uuid = some r →
      r.download_limit ≤ r.download_count → res = .ok b2 ct2 fn2 fs2 →
      Event.dbDelete uuid ∈ tr) := by
  constructor
  · exact download_dbDelete_inv uuid st env res st' tr h
  · intro r b2 ct2 fn2 fs2 hr hexp hres
    subst hres
    obtain ⟨bytes, r', -, hf', -, -, -, -, hcase⟩ :=
      download_ok_inv uuid st env b2 ct2 fn2 fs2 st' tr h
    rw [hr] at hf'
    injection hf' with hrr
    subst hrr
    rcases hcase with ⟨-, htr, -⟩ | ⟨hlt, -⟩
    · rw [htr]; simp
    · omega

/-- The store for the C7 witness: a row `"x"` whose fetched count has
already reached its limit, so the next fault-free download expires it. -/
def expiryStore : Store :=
  { blobs := fun i => if i = "x" then some [2] else none,
    files := fun i =>
      if i = "x" then
        some { id := "x", file_name := "n", content_type := "t", upload_time := 0,
               download_limit := 1, download_count := 1, file_size := 1,
               download_url := "u", owner := "o" }
      else none,
    users := fun _ => none }

/-- Witness for C7 at the concrete store `expiryStore`: the expiring
download emits both deletions in order and removes blob and row. -/
theorem download_expiry_delete_order_witness :
    Event.dbDelete "x" ∈ (download_file "x" expiryStore dlOk).2.2 ∧
    (download_file "x" expiryStore dlOk).2.2 =
      [.blobExistsCheck "x", .dbSelect "x", .dbUpdateCount "x", .blobRead "x",
       .blobDelete "x", .dbDelete "x"] ∧
    (download_file "x" expiryStore dlOk).2.1.blobs "x" = none ∧
    (download_file "x" expiryStore dlOk).2.1.files "x" = none := by
  have htot := download_expiry_delete_order "x" expiryStore dlOk
    (download_file "x" expiryStore dlOk).1
    (download_file "x" expiryStore dlOk).2.1
    (download_file "x" expiryStore dlOk).2.2 rfl
  have hmem := htot.2
    { id := "x", file_name := "n", content_type := "t", upload_time := 0,
      download_limit := 1, download_count := 1, file_size := 1,
      download_url := "u", owner := "o" }
    [2] "t" "n" 1 (by decide) (by decide) (by decide)
  exact ⟨hmem, htot.1 hmem⟩

/-- An upload of one byte with the header `download_limit: 0`. -/
def zeroLimUp : UpResult × Store × List Event :=
  upload (some "k0") none none (some "0") [9] "f8" 0 demoCfg demoStore upOk

/-- The `files` row created by the `download_limit: 0` upload. -/
def zeroRec : FileRec :=
  { id := "f8", file_name := "unknown", content_type := "unknown",
    upload_time := 0, download_limit := 0, download_count := 0, file_size := 1,
    download_url := "http://localhost:3000/download/f8", owner := "alice" }

/-- C8, counterexample.  The claim says the stored `download_limit` is
a positive integer.  `upload` applies `parse::<i32>().ok()` with no
positivity check, so the caller-supplied header `download_limit: 0` is
stored verbatim: the stored limit is `0`, which is not positive. -/
theorem zero_limit_stored :
    zeroLimUp.1 = .ok zeroRec ∧
    zeroLimUp.2.1.files "f8" = some zeroRec ∧
    zeroRec.download_limit = 0 ∧ ¬ 0 < zeroRec.download_limit := by
  exact ⟨by decide, by decide, by decide, by decide⟩

/-- C8, amended.  Every successful upload stores, in the returned
record and in the `files` table, `download_limit` equal to the header
value whenever that value parses as an `i32` — including zero and
negative values — and `1` when the header is absent or unparseable
(`effectiveLimit`). -/
theorem upload_limit_stored (k : String) (ct fn dl : Option String) (body : List Nat)
    (id : String) (now : Int) (cfg : Config) (st : Store) (env : UpEnv)
    (rec0 : FileRec) (st' : Store) (tr : List Event)
    (h : upload (some k) ct fn dl body id now cfg st env = (.ok rec0, st', tr)) :
    rec0.download_limit = effectiveLimit dl ∧ st'.files id = some rec0 := by
  by_cases h1 : env.userSelectFails
  · simp [upload, h1] at h
  cases hu : st.users k with
  | none => simp [upload, h1, hu] at h
  | some user =>
    by_cases h2 : env.mkdirFails
    · simp [upload, h1, hu, h2] at h
    by_cases h3 : env.writeFails
    · simp [upload, h1, hu, h2, h3] at h
    by_cases h4 : env.insertFails ∨ (st.files id).isSome
    · simp [upload, h1, hu, h2, h3, h4] at h
    · simp [upload, h1, hu, h2, h3, h4] at h
      obtain ⟨hrec, hstore, -⟩ := h
      subst hstore
      constructor
      · rw [← hrec]
      · simp [← hrec]

/-- The `files` row created by the C8 witness upload with header
`download_limit: 3`. -/
def threeRec : FileRec :=
  { id := "f9", file_name := "unknown", content_type := "unknown",
    upload_time := 0, download_limit := 3, download_count := 0, file_size := 1,
    download_url := "http://localhost:3000/download/f9", owner := "alice" }

/-- Witness for C8: an upload with header `download_limit: 3` stores
the limit `3 = effectiveLimit (some "3")`. -/
theorem upload_limit_stored_witness :
    threeRec.download_limit = effectiveLimit (some "3") ∧
    (upload (some "k0") none none (some "3") [1] "f9" 0 demoCfg demoStore upOk).2.1.files "f9"
      = some threeRec :=
  upload_limit_stored "k0" none none (some "3") [1] "f9" 0 demoCfg demoStore upOk
    threeRec
    (upload (some "k0") none none (some "3") [1] "f9" 0 demoCfg demoStore upOk).2.1
    (upload (some "k0") none none (some "3") [1] "f9" 0 demoCfg demoStore upOk).2.2
    rfl

/-- C10.  A successful download of `uuid` that does not trigger expiry
(the fetched count is below the limit) changes persistent state only by
incrementing that row's `download_count` by 1: the row's other fields,
every other row, every blob — including `uuid`'s own — and the `users`
table are unchanged. -/
theorem download_frame (uuid : String) (st : Store) (env : DlEnv) (b : List Nat)
    (ct fn : String) (fs : Int) (st' : Store) (tr : List Event) (r : FileRec)
    (h : download_file uuid st env = (.ok b ct fn fs, st', tr))
    (hr : st.files uuid = some r)
    (hcnt : r.download_count < r.download_limit) :
    st'.files uuid = some { r with download_count := r.download_count + 1 } ∧
    (∀ i, i ≠ uuid → st'.files i = st.files i) ∧
    (∀ i, st'.blobs i = st.blobs i) ∧
    st'.users = st.users := by
  obtain ⟨bytes, r', hb', hf', -, -, -, -, hcase⟩ :=
    download_ok_inv uuid st env b ct fn fs st' tr h
  rw [hr] at hf'
  injection hf' with hrr
  subst hrr
  rcases hcase with ⟨hge, -⟩ | ⟨-, -, hblobs, hfiles, husers⟩
  · omega
  · refine ⟨?_, ?_, hblobs, husers⟩
    · rw [hfiles uuid]; simp [hr]
    · intro i hi; rw [hfiles i]; simp [hi]

/-- The store for the C10 witness: a row `"z"` below its limit. -/
def frameStore : Store :=
  { blobs := fun i => if i = "z" then some [4] else none,
    files := fun i =>
      if i = "z" then
        some { id := "z", file_name := "n", content_type := "t", upload_time := 0,
               download_limit := 2, download_count := 0, file_size := 1,
               download_url := "u", owner := "o" }
      else none,
    users := fun _ => none }

/-- Witness for C10 at the concrete store `frameStore`. -/
theorem download_frame_witness :
    (download_file "z" frameStore dlOk).2.1.files "z" =
      some { id := "z", file_name := "n", content_type := "t", upload_time := 0,
             download_limit := 2, download_count := 1, file_size := 1,
             download_url := "u", owner := "o" } ∧
    (∀ i, i ≠ "z" → (download_file "z" frameStore dlOk).2.1.files i = frameStore.files i) ∧
    (∀ i, (download_file "z" frameStore dlOk).2.1.blobs i = frameStore.blobs i) ∧
    (download_file "z" frameStore dlOk).2.1.users = frameStore.users :=
  download_frame "z" frameStore dlOk [4] "t" "n" 1
    (download_file "z" frameStore dlOk).2.1 (download_file "z" frameStore dlOk).2.2
    { id := "z", file_name := "n", content_type := "t", upload_time := 0,
      download_limit := 2, download_count := 0, file_size := 1,
      download_url := "u", owner := "o" }
    rfl (by decide) (by decide)

end BitBeam
